import Mathlib

set_option autoImplicit false

namespace ServerUtils

/-!
Shallow embedding of `@wishdoor/server-utils` (TypeScript): pagination
helpers (`src/pagination`), object/URL utilities (`src/utils`) and the
validation adapter (`src/validation`).  Numbers are modelled as `Int`
(all the code's arithmetic is on integer-valued JS numbers), records as
association lists of string keys, and `throw` as `Except.error`.
-/

/-- One slot of the page-number sequence produced by `generatePageNumbers`:
either a page number or the `"ellipsis"` sentinel string. -/

inductive PageItem where
  | page (n : Int)
  | ellipsis
  deriving DecidableEq, Repr

/-- `intRange a b` is `[a, a+1, ..., b]` (empty when `b < a`).  It models a
TS loop `for (let i = a; i <= b; i++) push(i)` as well as
`Array.from({length: n}, (_, i) => i + 1)` (as `intRange 1 n`). -/

def intRange (a b : Int) : List Int :=
  (List.range (b - a + 1).toNat).map (fun n : Nat => a + (n : Int))

/-- Embedding of `generatePageNumbers` (src/pagination, lines 335-379).
`Math.floor((maxVisible - 3) / 2)` is `Int.fdiv` (floor division); the
sequential `pages.push` calls become list appends in the same order. -/

def generatePageNumbers (currentPage totalPages : Int) (maxVisible : Int := 5) :
    List PageItem :=
  if totalPages ≤ maxVisible then
    (intRange 1 totalPages).map PageItem.page
  else
    let halfVisible := (maxVisible - 3).fdiv 2
    if currentPage ≤ halfVisible + 2 then
      -- near the beginning: 1, then 2..maxVisible-2, then ellipsis, then last
      [PageItem.page 1] ++ (intRange 2 (maxVisible - 2)).map PageItem.page
        ++ [PageItem.ellipsis] ++ [PageItem.page totalPages]
    else if currentPage ≥ totalPages - halfVisible - 1 then
      -- near the end: 1, ellipsis, totalPages-maxVisible+3 .. totalPages-1, last
      [PageItem.page 1] ++ [PageItem.ellipsis]
        ++ (intRange (totalPages - maxVisible + 3) (totalPages - 1)).map PageItem.page
        ++ [PageItem.page totalPages]
    else
      -- middle: 1, ellipsis, currentPage±halfVisible window, ellipsis, last
      [PageItem.page 1] ++ [PageItem.ellipsis]
        ++ (intRange (currentPage - halfVisible) (currentPage + halfVisible)).map PageItem.page
        ++ [PageItem.ellipsis] ++ [PageItem.page totalPages]

/-- The page-number branch formulas exactly as the spec states them (§4.6):
full range when everything fits, otherwise near-start / near-end / middle
windows with `halfVisible = floor((maxVisible - 3) / 2)`. -/

def pageNumbersSpec (currentPage totalPages maxVisible : Int) : List PageItem :=
  if totalPages ≤ maxVisible then
    (intRange 1 totalPages).map PageItem.page
  else
    let halfVisible := (maxVisible - 3).fdiv 2
    if currentPage ≤ halfVisible + 2 then
      [PageItem.page 1] ++ (intRange 2 (maxVisible - 2)).map PageItem.page
        ++ [PageItem.ellipsis] ++ [PageItem.page totalPages]
    else if currentPage ≥ totalPages - halfVisible - 1 then
      [PageItem.page 1] ++ [PageItem.ellipsis]
        ++ (intRange (totalPages - maxVisible + 3) (totalPages - 1)).map PageItem.page
        ++ [PageItem.page totalPages]
    else
      [PageItem.page 1] ++ [PageItem.ellipsis]
        ++ (intRange (currentPage - halfVisible) (currentPage + halfVisible)).map PageItem.page
        ++ [PageItem.ellipsis] ++ [PageItem.page totalPages]

/-! ### Pagination parameter derivation and metadata (src/pagination) -/

/-- Sort direction, TS `'asc' | 'desc'`. -/

inductive SortDirection where
  | asc
  | desc
  deriving DecidableEq, Repr

/-- `PaginationQuery` (src/pagination/types.ts): all fields optional. -/

structure PaginationQuery where
  page : Option Int := none
  limit : Option Int := none
  search : Option String := none
  sortBy : Option String := none
  sortOrder : Option SortDirection := none
  deriving DecidableEq, Repr

/-- `DefaultSort` (src/pagination/types.ts). -/

structure DefaultSort where
  key : String
  value : SortDirection
  deriving DecidableEq, Repr

/-- `PaginationConfig` (src/pagination/types.ts). -/

structure PaginationConfig where
  defaultLimit : Int
  maxLimit : Int
  minLimit : Int
  defaultPage : Int
  deriving DecidableEq, Repr

/-- `DEFAULT_PAGINATION_CONFIG` (src/pagination/types.ts). -/

def DEFAULT_PAGINATION_CONFIG : PaginationConfig :=
  { defaultLimit := 20, maxLimit := 100, minLimit := 1, defaultPage := 1 }

/-- TS `Partial<PaginationConfig>`: each field may be absent. -/

structure PartialPaginationConfig where
  defaultLimit : Option Int := none
  maxLimit : Option Int := none
  minLimit : Option Int := none
  defaultPage : Option Int := none
  deriving DecidableEq, Repr

/-- The spread merge `{ ...DEFAULT_PAGINATION_CONFIG, ...config }` inside
`generateWhereClause`: a field given in `config` overrides the default. -/

def mergeConfig (config : PartialPaginationConfig) : PaginationConfig :=
  { defaultLimit := config.defaultLimit.getD DEFAULT_PAGINATION_CONFIG.defaultLimit,
    maxLimit := config.maxLimit.getD DEFAULT_PAGINATION_CONFIG.maxLimit,
    minLimit := config.minLimit.getD DEFAULT_PAGINATION_CONFIG.minLimit,
    defaultPage := config.defaultPage.getD DEFAULT_PAGINATION_CONFIG.defaultPage }

/-- `WhereClauseResult` (src/pagination/types.ts); the TS field `where` is a
Lean keyword, so it is called `whereClause` here.  The `orderBy` record always
holds exactly one key, so it is an association list built by the single
assignment `orderBy[k] = v`. -/

structure WhereClauseResult (T : Type) where
  whereClause : T
  orderBy : List (String × SortDirection)
  page : Int
  skip : Int
  limit : Int
  deriving Repr

/-- JS truthiness of an optional string: `undefined` and `""` are falsy
(models the `query.sortBy &&` test). -/

def strTruthy : Option String → Bool
  | none => false
  | some s => s ≠ ""

/-- Embedding of `generateWhereClause` (src/pagination, lines 167-206).
`query.sortOrder` has type `'asc' | 'desc'`, so its truthiness is `isSome`. -/

def generateWhereClause {T : Type} (query : PaginationQuery) (defaultSort : DefaultSort)
    (defaultWhere : T) (config : PartialPaginationConfig := {}) : WhereClauseResult T :=
  let mergedConfig := mergeConfig config
  let page := max (query.page.getD mergedConfig.defaultPage) 1
  let limit :=
    min (max (query.limit.getD mergedConfig.defaultLimit) mergedConfig.minLimit)
      mergedConfig.maxLimit
  let skip := (page - 1) * limit
  let orderBy :=
    if strTruthy query.sortBy && query.sortOrder.isSome then
      [(query.sortBy.getD "", query.sortOrder.getD SortDirection.asc)]
    else
      [(defaultSort.key, defaultSort.value)]
  { whereClause := defaultWhere, orderBy := orderBy, page := page, skip := skip, limit := limit }

/-- `PaginationMeta` (src/pagination/types.ts). -/

structure PaginationMeta where
  total : Int
  currentPage : Int
  pageSize : Int
  totalPages : Int
  hasNextPage : Bool
  hasPreviousPage : Bool
  deriving DecidableEq, Repr

/-- `Math.ceil(a / b)` for integer `a` and positive integer `b`:
the ceiling of the rational `a / b`, i.e. `-((-a) fdiv b)`. -/

def ceilDiv (a b : Int) : Int := -((-a).fdiv b)

/-- Embedding of `generatePagination` (src/pagination, lines 235-254).
`Math.ceil(total / limit) || 1` maps `0` (the only falsy integer value
reachable here) to `1`. -/

def generatePagination (total page limit : Int) : PaginationMeta :=
  let totalPages := if ceilDiv total limit = 0 then 1 else ceilDiv total limit
  { total := total, currentPage := page, pageSize := limit, totalPages := totalPages,
    hasNextPage := decide (page < totalPages), hasPreviousPage := decide (1 < page) }

/-! ### Object utilities (src/utils/sanitize.ts) -/

/-- A JS value, as far as the sanitize/projection helpers distinguish values:
`undefined`, `null`, finite (integer-valued) numbers, `NaN`, strings and
booleans. -/

inductive JsValue where
  | undef
  | null
  | num (n : Int)
  | nan
  | str (s : String)
  | bool (b : Bool)
  deriving DecidableEq, Repr

/-- A JS object with string keys: an insertion-ordered association list
(the `for...in` loop visits own enumerable keys in insertion order, and a
JS object has no duplicate keys). -/

abbrev JsObject := List (String × JsValue)

/-- `SanitizeObjectOptions` (src/utils/types.ts) with the destructuring
defaults of `sanitizeObject` baked in: `removeUndefined` defaults to `true`,
every other removal flag to `false`, both key lists to `[]`. -/

structure SanitizeObjectOptions where
  removeUndefined : Bool := true
  removeNull : Bool := false
  removeEmptyString : Bool := false
  removeZero : Bool := false
  removeNaN : Bool := false
  excludeKeys : List String := []
  includeKeys : List String := []
  deriving DecidableEq, Repr

/-- The per-key decision of the `sanitizeObject` loop body (src/utils/
sanitize.ts, lines 51-76): `true` means the entry is copied to the result,
`false` means the loop `continue`s without copying.  The `removeNaN` test
`typeof value === 'number' && Number.isNaN(value)` holds exactly for the
`nan` constructor. -/

def keepEntry (o : SanitizeObjectOptions) (key : String) (value : JsValue) : Bool :=
  if decide (0 < o.excludeKeys.length) && o.excludeKeys.contains key then true
  else if decide (0 < o.includeKeys.length) && !(o.includeKeys.contains key) then true
  else if o.removeUndefined && value == JsValue.undef then false
  else if o.removeNull && value == JsValue.null then false
  else if o.removeEmptyString && value == JsValue.str "" then false
  else if o.removeZero && value == JsValue.num 0 then false
  else if o.removeNaN && value == JsValue.nan then false
  else true

/-- Embedding of `sanitizeObject` (src/utils/sanitize.ts, lines 35-79):
the loop copies, in insertion order, exactly the entries `keepEntry` keeps. -/

def sanitizeObject (obj : JsObject) (options : SanitizeObjectOptions := {}) : JsObject :=
  obj.filter (fun e => keepEntry options e.1 e.2)

/-- The per-key rule exactly as the spec words it (§4.7): an excluded key is
kept unconditionally; else a key outside a non-empty `includeKeys` is kept
unconditionally; else the active removal predicates apply in the order
undefined → null → empty string → zero → NaN, dropping on first match. -/

def specKeep (o : SanitizeObjectOptions) (key : String) (value : JsValue) : Bool :=
  if o.excludeKeys.contains key then true
  else if !o.includeKeys.isEmpty && !(o.includeKeys.contains key) then true
  else if o.removeUndefined && value == JsValue.undef then false
  else if o.removeNull && value == JsValue.null then false
  else if o.removeEmptyString && value == JsValue.str "" then false
  else if o.removeZero && value == JsValue.num 0 then false
  else if o.removeNaN && value == JsValue.nan then false
  else true

/-- First-match lookup of a key in an association list: the value JS property
access `obj[key]` yields (JS objects have unique keys, so "first" is "the"). -/

def lookupKey (k : String) : JsObject → Option JsValue
  | [] => none
  | (k', v) :: rest => if k' = k then some v else lookupKey k rest

/-- Embedding of `pick` (src/utils/sanitize.ts, lines 116-129): iterate the
requested keys in order, copying `key: obj[key]` whenever
`hasOwnProperty(obj, key)` holds. -/

def pick (obj : JsObject) (keys : List String) : JsObject :=
  keys.filterMap (fun k => (lookupKey k obj).map (fun v => (k, v)))

/-- Embedding of `omit` (src/utils/sanitize.ts, lines 134-145; `omit` is a
Lean keyword): shallow-copy `obj` and delete the listed keys, i.e. keep the
entries whose key is not listed, in insertion order. -/

def omitKeys (obj : JsObject) (keys : List String) : JsObject :=
  obj.filter (fun e => !(keys.contains e.1))

/-- JS spread merge `{...a, ...b}`, value-wise: an entry of `a` survives
unless `b` redefines its key, and all of `b` follows.  (The real spread keeps
an overridden key at its position in `a`; deep-equality is insensitive to key
order, and in the claim's use the two key sets are disjoint.) -/

def mergeRecords (a b : JsObject) : JsObject :=
  a.filter (fun e => (lookupKey e.1 b).isNone) ++ b

/-- Deep equality of two flat JS objects: same value (or absence) at every
key, irrespective of key order. -/

def recordEquiv (a b : JsObject) : Prop := ∀ k, lookupKey k a = lookupKey k b

/-! ### URL utilities (src/utils, API helpers) -/

/-- A scalar query-parameter value:
`string | number | boolean | undefined | null`. -/

inductive QueryParamValue where
  | str (s : String)
  | num (n : Int)
  | bool (b : Bool)
  | undef
  | null
  deriving DecidableEq, Repr

/-- A query-parameter entry: a scalar or an array of scalars. -/

inductive QueryParamEntry where
  | single (v : QueryParamValue)
  | arr (vs : List QueryParamValue)
  deriving DecidableEq, Repr

/-- `QueryParamsObject`: a record of query parameters in insertion order. -/

abbrev QueryParamsObject := List (String × QueryParamEntry)

/-- `value.toString()` on a scalar (`generateUrl`/`buildQueryString` only call
it on non-`undefined`, non-`null` values). -/

def qpToString : QueryParamValue → String
  | QueryParamValue.str s => s
  | QueryParamValue.num n => toString n
  | QueryParamValue.bool b => if b then "true" else "false"
  | QueryParamValue.undef => "undefined"
  | QueryParamValue.null => "null"

/-- Embedding of `buildQueryString` (src/utils API helpers, lines 207-227):
skip `undefined`/`null` (scalar or inside an array), append one `key=value`
pair per remaining scalar in order, join with `&`.  The percent-encoding
`URLSearchParams` applies to each key and value is the identity on the
values exercised here (no claim concerns the escaping itself). -/

def buildQueryString (queryParams : Option QueryParamsObject := none) : String :=
  match queryParams with
  | none => ""
  | some l =>
    let pairs : List (String × String) :=
      l.foldl (fun acc kv =>
        match kv.2 with
        | QueryParamEntry.single QueryParamValue.undef => acc
        | QueryParamEntry.single QueryParamValue.null => acc
        | QueryParamEntry.single v => acc ++ [(kv.1, qpToString v)]
        | QueryParamEntry.arr items => acc ++ items.filterMap (fun item =>
            match item with
            | QueryParamValue.undef => none
            | QueryParamValue.null => none
            | v => some (kv.1, qpToString v))) []
    String.intercalate "&" (pairs.map (fun p => p.1 ++ "=" ++ p.2))

/-- Embedding of `generateUrl` (src/utils API helpers, lines 263-278).  The
process environment (`process.env.API_URL`) is passed explicitly as `env`;
the source's body computes `const base = baseUrl ?? ""` and never reads the
environment, so `env` is unused here exactly because no `process.env` read
occurs in the source body.  `throw new Error(...)` is `Except.error`. -/

def generateUrl (env : Option String) (path : String)
    (queryParams : Option QueryParamsObject := none) (baseUrl : Option String := none) :
    Except String String :=
  let base := baseUrl.getD ""
  if base = "" then
    Except.error "Base URL is required. Provide baseUrl parameter."
  else
    let queryString := buildQueryString queryParams
    let pathWithQuery := if queryString = "" then path else path ++ "?" ++ queryString
    Except.ok (base ++ pathWithQuery)

/-- `true` iff the call threw the configuration error. -/

def isConfigError : Except String String → Bool
  | Except.error _ => true
  | Except.ok _ => false

/-! ### Validation adapter (src/validation) -/

/-- A path segment of a schema-engine issue: property names and numeric
array indices. -/

inductive PathSeg where
  | str (s : String)
  | num (n : Int)
  deriving DecidableEq, Repr

/-- The string a segment contributes to `path.join(".")`. -/

def PathSeg.render : PathSeg → String
  | PathSeg.str s => s
  | PathSeg.num n => toString n

/-- One entry of the schema engine's ordered error list (`{path, message}`). -/

structure ZodIssue where
  path : List PathSeg
  message : String
  deriving DecidableEq, Repr

/-- `ValidationErrorItem` (src/validation/types.ts): `field` is the dotted
path. -/

structure ValidationErrorItem where
  field : String
  message : String
  deriving DecidableEq, Repr

/-- `parseZodError` (src/validation/types.ts, lines 41-48): map each issue,
in order, to `{field: err.path.join("."), message: err.message}`. -/

def parseZodError (errors : List ZodIssue) : List ValidationErrorItem :=
  errors.map (fun err =>
    { field := String.intercalate "." (err.path.map PathSeg.render),
      message := err.message })

/-- `ValidationError` (src/validation/types.ts, lines 19-36): the constructor
defaults `statusCode` to 400 and always sets `code = "VALIDATION_ERROR"`. -/

structure ValidationError where
  message : String
  errors : List ValidationErrorItem
  statusCode : Int := 400
  code : String := "VALIDATION_ERROR"
  deriving DecidableEq, Repr

/-- The three request fields the middleware reads and may overwrite. -/

structure Req where
  body : JsValue
  query : JsValue
  params : JsValue
  deriving DecidableEq, Repr

/-- An object keyed by (a subset of) `body`/`query`/`params`: the object
assembled for validation, and the object `parseAsync` resolves to. `none`
models an absent key / `undefined` value. -/

structure SectionData where
  body : Option JsValue := none
  query : Option JsValue := none
  params : Option JsValue := none
  deriving DecidableEq, Repr

/-- What an awaited `schema.parseAsync` may throw: a ZodError (an object with
an `errors` array) or any other exception. -/

inductive ParseFailure where
  | zodError (issues : List ZodIssue)
  | other
  deriving DecidableEq, Repr

/-- The middleware's view of an `AnyZodObject`: which of the `body`/`query`/
`params` keys its shape declares, plus the behaviour of `parseAsync` on the
assembled object.  The zod engine itself is an external capability (out of
scope per the spec), so `parse` is an arbitrary function. -/

structure Schema where
  hasBody : Bool
  hasQuery : Bool
  hasParams : Bool
  parse : SectionData → Except ParseFailure SectionData

/-- What the middleware hands to the framework: `next()` with the possibly
overwritten request, `next(new ValidationError(...))`, or `next(error)` for a
non-zod exception. -/

inductive MiddlewareOutcome where
  | next (req : Req)
  | nextValidationError (e : ValidationError)
  | nextOther

/-- The `dataToValidate` object (src/validation middleware, lines 127-140):
exactly the sections the schema's shape declares, each read from the
corresponding request field. -/

def dataToValidate (schema : Schema) (req : Req) : SectionData :=
  { body := if schema.hasBody then some req.body else none,
    query := if schema.hasQuery then some req.query else none,
    params := if schema.hasParams then some req.params else none }

/-- Embedding of `validateMiddleware` (src/validation middleware, lines
124-177): validate the assembled sections; on success overwrite each request
field for which the validated object holds a defined value; on a ZodError
call `next` with a `ValidationError` built from `parseZodError` (message =
first error's message, or "Validation failed"); pass any other exception on
unchanged. -/

def validateMiddleware (schema : Schema) (req : Req) : MiddlewareOutcome :=
  match schema.parse (dataToValidate schema req) with
  | Except.ok validated =>
      MiddlewareOutcome.next
        { body := validated.body.getD req.body,
          query := validated.query.getD req.query,
          params := validated.params.getD req.params }
  | Except.error (ParseFailure.zodError issues) =>
      let errors := parseZodError issues
      MiddlewareOutcome.nextValidationError
        { message := (errors.head?.map ValidationErrorItem.message).getD "Validation failed",
          errors := errors }
  | Except.error ParseFailure.other => MiddlewareOutcome.nextOther

/-- A schema declaring only `body`, whose engine always rejects with a single
issue at path `body.email`. -/

def emailRejectSchema : Schema :=
  { hasBody := true, hasQuery := false, hasParams := false,
    parse := fun _ =>
      Except.error (ParseFailure.zodError
        [{ path := [PathSeg.str "body", PathSeg.str "email"], message := "Invalid email" }]) }

/-! ### Theorems -/

theorem length_intRange (a b : Int) : (intRange a b).length = (b - a + 1).toNat := by
  rw [intRange, List.length_map, List.length_range]

theorem mem_intRange {x a b : Int} : x ∈ intRange a b ↔ a ≤ x ∧ x ≤ b := by
  rw [intRange, List.mem_map]
  constructor
  · rintro ⟨i, hi, rfl⟩
    rw [List.mem_range] at hi
    omega
  · rintro ⟨h1, h2⟩
    refine ⟨(x - a).toNat, ?_, ?_⟩
    · rw [List.mem_range]; omega
    · omega

/-- C1 (counterexample): at `currentPage = 4, totalPages = 7, maxVisible = 5`
all of the claim's hypotheses hold, yet the returned sequence has 7 slots,
more than `maxVisible = 5` — the middle branch emits `maxVisible + 2` slots. -/
theorem generatePageNumbers_c1_counterexample :
    ((1 : Int) ≤ 4 ∧ (4 : Int) ≤ 7 ∧ (5 : Int) ≤ 5) ∧
      ¬ (((generatePageNumbers 4 7 5).length : Int) ≤ 5) := by
  decide

/-- C1 (amended): for `1 ≤ currentPage ≤ totalPages` and `maxVisible ≥ 5` the
sequence contains page 1 and page `totalPages`, and its total length (page
numbers plus ellipsis markers) is at most `maxVisible + 2` (not `maxVisible`:
the middle branch emits `maxVisible + 2` slots). -/
theorem generatePageNumbers_first_last_length (c t m : Int)
    (h1 : 1 ≤ c) (h2 : c ≤ t) (h3 : 5 ≤ m) :
    PageItem.page 1 ∈ generatePageNumbers c t m ∧
      PageItem.page t ∈ generatePageNumbers c t m ∧
      ((generatePageNumbers c t m).length : Int) ≤ m + 2 := by
  have hfd : (m - 3).fdiv 2 = (m - 3) / 2 := Int.fdiv_eq_ediv _ (by omega)
  simp only [generatePageNumbers]
  split_ifs with hTm hc1 hc2
  · refine ⟨?_, ?_, ?_⟩
    · exact List.mem_map_of_mem _ (mem_intRange.mpr ⟨le_refl _, by omega⟩)
    · exact List.mem_map_of_mem _ (mem_intRange.mpr ⟨by omega, le_refl _⟩)
    · rw [List.length_map, length_intRange]; omega
  · refine ⟨by simp, by simp, ?_⟩
    simp only [List.length_append, List.length_map, length_intRange, List.length_cons,
      List.length_nil]
    omega
  · refine ⟨by simp, by simp, ?_⟩
    simp only [List.length_append, List.length_map, length_intRange, List.length_cons,
      List.length_nil]
    omega
  · refine ⟨by simp, by simp, ?_⟩
    simp only [List.length_append, List.length_map, length_intRange, List.length_cons,
      List.length_nil]
    rw [hfd]
    omega

/-- Witness for `generatePageNumbers_first_last_length` at `(4, 7, 5)`. -/
theorem generatePageNumbers_first_last_length_witness :
    (1 : Int) ≤ 4 ∧ (4 : Int) ≤ 7 ∧ (5 : Int) ≤ 5 ∧
      (PageItem.page 1 ∈ generatePageNumbers 4 7 5 ∧
        PageItem.page 7 ∈ generatePageNumbers 4 7 5 ∧
        ((generatePageNumbers 4 7 5).length : Int) ≤ 5 + 2) :=
  ⟨by decide, by decide, by decide,
    generatePageNumbers_first_last_length 4 7 5 (by decide) (by decide) (by decide)⟩

/-- C2: `generatePageNumbers` returns exactly the spec's branch formulas
(`pageNumbersSpec`), and the spec's concrete examples hold:
`(1,10,5)` and `(10,10,5)` each contain page 1, page 10 and exactly one
ellipsis, and `(5,5,5)` is `[1,2,3,4,5]` with no ellipsis. -/
theorem generatePageNumbers_matches_spec :
    (∀ c t m : Int, generatePageNumbers c t m = pageNumbersSpec c t m) ∧
      (PageItem.page 1 ∈ generatePageNumbers 1 10 5 ∧
        PageItem.page 10 ∈ generatePageNumbers 1 10 5 ∧
        (generatePageNumbers 1 10 5).count PageItem.ellipsis = 1) ∧
      (PageItem.page 1 ∈ generatePageNumbers 10 10 5 ∧
        PageItem.page 10 ∈ generatePageNumbers 10 10 5 ∧
        (generatePageNumbers 10 10 5).count PageItem.ellipsis = 1) ∧
      generatePageNumbers 5 5 5 =
        [PageItem.page 1, PageItem.page 2, PageItem.page 3, PageItem.page 4, PageItem.page 5] ∧
      (generatePageNumbers 5 5 5).count PageItem.ellipsis = 0 :=
  ⟨fun _ _ _ => rfl, by decide, by decide, by decide, by decide⟩

/-- C4: under `minLimit ≤ defaultLimit ≤ maxLimit` on the merged config,
`generateWhereClause` returns `page = max(query.page ?? defaultPage, 1)`,
`limit = min(max(query.limit ?? defaultLimit, minLimit), maxLimit)` (floor
before ceiling) and `skip = (page - 1) * limit`; the resulting limit always
lies in `[minLimit, maxLimit]` (the function is total: no input is rejected). -/
theorem generateWhereClause_page_limit_skip {T : Type} (query : PaginationQuery)
    (defaultSort : DefaultSort) (defaultWhere : T) (config : PartialPaginationConfig)
    (hlo : (mergeConfig config).minLimit ≤ (mergeConfig config).defaultLimit)
    (hhi : (mergeConfig config).defaultLimit ≤ (mergeConfig config).maxLimit) :
    (generateWhereClause query defaultSort defaultWhere config).page =
        max (query.page.getD (mergeConfig config).defaultPage) 1 ∧
      (generateWhereClause query defaultSort defaultWhere config).limit =
        min (max (query.limit.getD (mergeConfig config).defaultLimit)
          (mergeConfig config).minLimit) (mergeConfig config).maxLimit ∧
      (generateWhereClause query defaultSort defaultWhere config).skip =
        ((generateWhereClause query defaultSort defaultWhere config).page - 1) *
          (generateWhereClause query defaultSort defaultWhere config).limit ∧
      (mergeConfig config).minLimit ≤
        (generateWhereClause query defaultSort defaultWhere config).limit ∧
      (generateWhereClause query defaultSort defaultWhere config).limit ≤
        (mergeConfig config).maxLimit := by
  refine ⟨rfl, rfl, rfl, ?_, ?_⟩ <;>
    simp only [generateWhereClause] <;> omega

/-- Witness for `generateWhereClause_page_limit_skip`: the default config with
`query.limit = 500` (above `maxLimit = 100`). -/
theorem generateWhereClause_page_limit_skip_witness :
    (mergeConfig {}).minLimit ≤ (mergeConfig {}).defaultLimit ∧
      (mergeConfig {}).defaultLimit ≤ (mergeConfig {}).maxLimit ∧
      ((generateWhereClause { page := some 2, limit := some 500 }
            ⟨"createdAt", SortDirection.desc⟩ () {}).page =
          max ((some (2 : Int)).getD (mergeConfig {}).defaultPage) 1 ∧
        (generateWhereClause { page := some 2, limit := some 500 }
            ⟨"createdAt", SortDirection.desc⟩ () {}).limit =
          min (max ((some (500 : Int)).getD (mergeConfig {}).defaultLimit)
            (mergeConfig {}).minLimit) (mergeConfig {}).maxLimit ∧
        (generateWhereClause { page := some 2, limit := some 500 }
            ⟨"createdAt", SortDirection.desc⟩ () {}).skip =
          ((generateWhereClause { page := some 2, limit := some 500 }
                ⟨"createdAt", SortDirection.desc⟩ () {}).page - 1) *
            (generateWhereClause { page := some 2, limit := some 500 }
              ⟨"createdAt", SortDirection.desc⟩ () {}).limit ∧
        (mergeConfig {}).minLimit ≤
          (generateWhereClause { page := some 2, limit := some 500 }
            ⟨"createdAt", SortDirection.desc⟩ () {}).limit ∧
        (generateWhereClause { page := some 2, limit := some 500 }
            ⟨"createdAt", SortDirection.desc⟩ () {}).limit ≤
          (mergeConfig {}).maxLimit) :=
  ⟨by decide, by decide,
    generateWhereClause_page_limit_skip { page := some 2, limit := some 500 }
      ⟨"createdAt", SortDirection.desc⟩ () {} (by decide) (by decide)⟩

/-- C6 (counterexample): with `sortBy = ""` (present) and `sortOrder = asc`
(present), `generateWhereClause` does not return `{"": asc}`: the `&&` test
uses JS truthiness, so the empty-string `sortBy` falls back to the default
sort `{createdAt: desc}`. -/
theorem generateWhereClause_c6_counterexample :
    ({ sortBy := some "", sortOrder := some SortDirection.asc } : PaginationQuery).sortBy =
        some "" ∧
      ({ sortBy := some "", sortOrder := some SortDirection.asc } : PaginationQuery).sortOrder =
        some SortDirection.asc ∧
      (generateWhereClause { sortBy := some "", sortOrder := some SortDirection.asc }
          ⟨"createdAt", SortDirection.desc⟩ () {}).orderBy ≠ [("", SortDirection.asc)] ∧
      (generateWhereClause { sortBy := some "", sortOrder := some SortDirection.asc }
          ⟨"createdAt", SortDirection.desc⟩ () {}).orderBy =
        [("createdAt", SortDirection.desc)] := by
  refine ⟨rfl, rfl, ?_, rfl⟩
  decide

/-- C6 (amended): `orderBy` is `{query.sortBy: query.sortOrder}` whenever
both are present and `sortBy` is non-empty (truthy); otherwise — including
when only one of the two is given, or when `sortBy` is the empty string —
it is `{defaultSort.key: defaultSort.value}`.  The two sorts are never
merged field-by-field: the result is always exactly one key/direction pair. -/
theorem generateWhereClause_orderBy {T : Type} (query : PaginationQuery)
    (defaultSort : DefaultSort) (defaultWhere : T) (config : PartialPaginationConfig) :
    (generateWhereClause query defaultSort defaultWhere config).orderBy =
      match query.sortBy, query.sortOrder with
      | some s, some ord =>
          if s = "" then [(defaultSort.key, defaultSort.value)] else [(s, ord)]
      | _, _ => [(defaultSort.key, defaultSort.value)] := by
  rcases hs : query.sortBy with _ | s <;> rcases ho : query.sortOrder with _ | ord <;>
    simp [generateWhereClause, strTruthy, hs, ho]

/-- C5: for `total ≥ 0`, `page ≥ 1`, `limit ≥ 1`, `generatePagination` returns
exactly `{total, currentPage: page, pageSize: limit,
totalPages: max(ceil(total/limit), 1), hasNextPage: page < totalPages,
hasPreviousPage: page > 1}`; `total = 0` yields `totalPages = 1`, and
`totalPages ≥ 1` always. -/
theorem generatePagination_spec (total page limit : Int)
    (h0 : 0 ≤ total) (h1 : 1 ≤ page) (h2 : 1 ≤ limit) :
    generatePagination total page limit =
        { total := total, currentPage := page, pageSize := limit,
          totalPages := max (ceilDiv total limit) 1,
          hasNextPage := decide (page < max (ceilDiv total limit) 1),
          hasPreviousPage := decide (1 < page) } ∧
      (total = 0 → (generatePagination total page limit).totalPages = 1) ∧
      1 ≤ (generatePagination total page limit).totalPages := by
  have ht : 0 ≤ ceilDiv total limit := by
    unfold ceilDiv
    have hle : (-total).fdiv limit ≤ 0 := by
      rw [Int.fdiv_eq_ediv _ (by omega)]
      have h := Int.ediv_le_ediv (c := limit) (by omega) (show -total ≤ (0 : Int) by omega)
      simpa using h
    omega
  have htp : (if ceilDiv total limit = 0 then 1 else ceilDiv total limit) =
      max (ceilDiv total limit) 1 := by
    by_cases h : ceilDiv total limit = 0
    · simp [h]
    · have hge : 1 ≤ ceilDiv total limit := by omega
      simp [h, max_eq_left hge]
  refine ⟨?_, ?_, ?_⟩
  · simp only [generatePagination, htp]
  · intro h0'
    subst h0'
    simp [generatePagination, ceilDiv]
  · simp only [generatePagination, htp]
    exact le_max_right _ _

/-- Witness for `generatePagination_spec` at the spec's example
`{total: 150, page: 3, limit: 20}` (8 pages, both flags true). -/
theorem generatePagination_spec_witness :
    (0 : Int) ≤ 150 ∧ (1 : Int) ≤ 3 ∧ (1 : Int) ≤ 20 ∧
      (generatePagination 150 3 20 =
          { total := 150, currentPage := 3, pageSize := 20,
            totalPages := max (ceilDiv 150 20) 1,
            hasNextPage := decide ((3 : Int) < max (ceilDiv 150 20) 1),
            hasPreviousPage := decide ((1 : Int) < 3) } ∧
        ((150 : Int) = 0 → (generatePagination 150 3 20).totalPages = 1) ∧
        1 ≤ (generatePagination 150 3 20).totalPages) :=
  ⟨by decide, by decide, by decide,
    generatePagination_spec 150 3 20 (by decide) (by decide) (by decide)⟩

theorem keepEntry_eq_specKeep (o : SanitizeObjectOptions) (k : String) (v : JsValue) :
    keepEntry o k v = specKeep o k v := by
  rcases o with ⟨ru, rn, re, rz, rna, ex, inc⟩
  cases ex <;> cases inc <;> simp [keepEntry, specKeep]

/-- C7: `sanitizeObject` filters each entry by exactly the spec's per-key
rule (`specKeep`), the option defaults are `removeUndefined = true` and all
other flags false, the default call on `{a:1,b:null,c:"",d:undefined,e:0}`
removes only `d`, and with `{removeNull: true, excludeKeys: ["b"]}` the
entry `b: null` is retained. -/
theorem sanitizeObject_spec :
    (∀ (obj : JsObject) (o : SanitizeObjectOptions),
        sanitizeObject obj o = obj.filter (fun e => specKeep o e.1 e.2)) ∧
      ({} : SanitizeObjectOptions) =
        { removeUndefined := true, removeNull := false, removeEmptyString := false,
          removeZero := false, removeNaN := false, excludeKeys := [], includeKeys := [] } ∧
      sanitizeObject
          [("a", JsValue.num 1), ("b", JsValue.null), ("c", JsValue.str ""),
            ("d", JsValue.undef), ("e", JsValue.num 0)] {} =
        [("a", JsValue.num 1), ("b", JsValue.null), ("c", JsValue.str ""),
          ("e", JsValue.num 0)] ∧
      ("b", JsValue.null) ∈ sanitizeObject
          [("a", JsValue.num 1), ("b", JsValue.null), ("c", JsValue.str ""),
            ("d", JsValue.undef), ("e", JsValue.num 0)]
          { removeNull := true, excludeKeys := ["b"] } :=
  ⟨fun obj o => by
      unfold sanitizeObject
      have h : (fun e : String × JsValue => keepEntry o e.1 e.2) =
          (fun e => specKeep o e.1 e.2) :=
        funext fun e => keepEntry_eq_specKeep o e.1 e.2
      rw [h],
    rfl, by decide, by decide⟩

theorem lookupKey_append (k : String) (a b : JsObject) :
    lookupKey k (a ++ b) = match lookupKey k a with
      | some v => some v
      | none => lookupKey k b := by
  induction a with
  | nil => simp [lookupKey]
  | cons e rest ih =>
    rcases e with ⟨k', v⟩
    by_cases h : k' = k <;> simp [lookupKey, h, ih]

theorem lookupKey_filter_key (q : String → Bool) (l : JsObject) (k : String) :
    lookupKey k (l.filter (fun e => q e.1)) = if q k then lookupKey k l else none := by
  induction l with
  | nil => simp [lookupKey]
  | cons e rest ih =>
    rcases e with ⟨k', v⟩
    by_cases h : k' = k
    · subst h
      cases hq : q k' <;> simp [List.filter_cons, hq, lookupKey, ih]
    · cases hq : q k' <;> simp [List.filter_cons, hq, lookupKey, h, ih]

theorem lookupKey_pick (obj : JsObject) (K : List String) (k : String) :
    lookupKey k (pick obj K) = if k ∈ K then lookupKey k obj else none := by
  induction K with
  | nil => simp [pick, lookupKey]
  | cons k' K ih =>
    simp only [pick, List.filterMap_cons]
    cases hl : lookupKey k' obj with
    | none =>
      simp only [Option.map_none']
      rw [show K.filterMap (fun k => (lookupKey k obj).map (fun v => (k, v))) = pick obj K
        from rfl, ih]
      by_cases hk : k = k'
      · subst hk
        by_cases hmem : k ∈ K <;> simp [hmem, hl]
      · simp [List.mem_cons, hk]
    | some v =>
      simp only [Option.map_some']
      rw [show K.filterMap (fun k => (lookupKey k obj).map (fun v => (k, v))) = pick obj K
        from rfl]
      by_cases hk : k = k'
      · subst hk
        simp [lookupKey, hl]
      · rw [show lookupKey k ((k', v) :: pick obj K) = lookupKey k (pick obj K) by
          simp [lookupKey, Ne.symm hk], ih]
        simp [List.mem_cons, hk]

theorem lookupKey_omitKeys (obj : JsObject) (K : List String) (k : String) :
    lookupKey k (omitKeys obj K) = if k ∈ K then none else lookupKey k obj := by
  rw [omitKeys, lookupKey_filter_key (fun s => !K.contains s) obj k]
  by_cases hk : k ∈ K <;> simp [hk]

theorem lookupKey_eq_some_iff (o : JsObject) (hnd : (o.map Prod.fst).Nodup)
    (k : String) (v : JsValue) :
    lookupKey k o = some v ↔ (k, v) ∈ o := by
  induction o with
  | nil => simp [lookupKey]
  | cons e rest ih =>
    rcases e with ⟨k', v'⟩
    simp only [List.map_cons, List.nodup_cons] at hnd
    by_cases hk : k' = k
    · subst hk
      rw [lookupKey, if_pos rfl]
      constructor
      · intro h
        injection h with hv
        subst hv
        exact List.mem_cons_self _ _
      · intro h
        rcases List.mem_cons.mp h with h1 | h2
        · injection h1 with _ hv
          subst hv
          rfl
        · exact absurd (List.mem_map_of_mem Prod.fst h2) hnd.1
    · rw [lookupKey, if_neg hk, ih hnd.2, List.mem_cons]
      constructor
      · exact Or.inr
      · rintro (h1 | h2)
        · injection h1 with hk' _
          exact absurd hk'.symm hk
        · exact h2

theorem mem_pick_iff (o : JsObject) (hnd : (o.map Prod.fst).Nodup)
    (K : List String) (k : String) (v : JsValue) :
    (k, v) ∈ pick o K ↔ (k, v) ∈ o ∧ k ∈ K := by
  simp only [pick, List.mem_filterMap, Option.map_eq_some']
  constructor
  · rintro ⟨a, haK, w, hw, heq⟩
    injection heq with h1 h2
    subst h1
    subst h2
    exact ⟨(lookupKey_eq_some_iff o hnd a w).mp hw, haK⟩
  · rintro ⟨hmem, hK⟩
    exact ⟨k, hK, v, (lookupKey_eq_some_iff o hnd k v).mpr hmem, rfl⟩

theorem mem_omitKeys_iff (o : JsObject) (K : List String) (k : String) (v : JsValue) :
    (k, v) ∈ omitKeys o K ↔ (k, v) ∈ o ∧ k ∉ K := by
  simp [omitKeys, List.mem_filter]

theorem merge_pick_omit (o : JsObject) (K : List String) :
    recordEquiv (mergeRecords (pick o K) (omitKeys o K)) o := by
  intro k
  unfold mergeRecords
  rw [lookupKey_append,
    lookupKey_filter_key (fun s => (lookupKey s (omitKeys o K)).isNone) (pick o K) k,
    lookupKey_pick, lookupKey_omitKeys]
  by_cases hk : k ∈ K <;> cases hv : lookupKey k o <;> simp [hk, hv]

/-- C9: for an object `o` (unique keys, as every JS object) and a key list
`K ⊆ keys(o)`: `pick o K` holds exactly the entries of `o` with key in `K`,
`omitKeys o K` exactly those with key outside `K`, and the spread merge
`{...pick(o,K), ...omit(o,K)}` deep-equals `o`.  (Both functions build fresh
lists; the embedding is pure, as are the source functions, which write only
to a fresh `result` object.) -/
theorem pick_omit_complement (o : JsObject) (K : List String)
    (hnd : (o.map Prod.fst).Nodup) (_hK : ∀ k ∈ K, k ∈ o.map Prod.fst) :
    (∀ k v, (k, v) ∈ pick o K ↔ (k, v) ∈ o ∧ k ∈ K) ∧
      (∀ k v, (k, v) ∈ omitKeys o K ↔ (k, v) ∈ o ∧ k ∉ K) ∧
      recordEquiv (mergeRecords (pick o K) (omitKeys o K)) o :=
  ⟨fun k v => mem_pick_iff o hnd K k v, fun k v => mem_omitKeys_iff o K k v,
    merge_pick_omit o K⟩

/-- Witness for `pick_omit_complement` at
`o = {a: 1, b: null}`, `K = ["a"]`. -/
theorem pick_omit_complement_witness :
    (([("a", JsValue.num 1), ("b", JsValue.null)].map Prod.fst).Nodup ∧
        (∀ k ∈ ["a"], k ∈ [("a", JsValue.num 1), ("b", JsValue.null)].map Prod.fst)) ∧
      ((∀ k v, (k, v) ∈ pick [("a", JsValue.num 1), ("b", JsValue.null)] ["a"] ↔
          (k, v) ∈ [("a", JsValue.num 1), ("b", JsValue.null)] ∧ k ∈ ["a"]) ∧
        (∀ k v, (k, v) ∈ omitKeys [("a", JsValue.num 1), ("b", JsValue.null)] ["a"] ↔
          (k, v) ∈ [("a", JsValue.num 1), ("b", JsValue.null)] ∧ k ∉ ["a"]) ∧
        recordEquiv
          (mergeRecords (pick [("a", JsValue.num 1), ("b", JsValue.null)] ["a"])
            (omitKeys [("a", JsValue.num 1), ("b", JsValue.null)] ["a"]))
          [("a", JsValue.num 1), ("b", JsValue.null)]) :=
  ⟨⟨by decide, by decide⟩,
    pick_omit_complement [("a", JsValue.num 1), ("b", JsValue.null)] ["a"]
      (by decide) (by decide)⟩

/-- C3 (code bug): with the environment variable set and no `baseUrl`
argument, `generateUrl "/users"` still throws the configuration error — the
implementation computes `baseUrl ?? ""` and never falls back to the
environment, contradicting its own doc comment ("defaults to
process.env.API_URL") and the spec.  In general the outcome ignores `env`
entirely, and the call fails iff the `baseUrl` parameter is absent or empty. -/
theorem generateUrl_ignores_env :
    generateUrl (some "https://api.example.com") "/users" none none =
        Except.error "Base URL is required. Provide baseUrl parameter." ∧
      (∀ (env env' : Option String) (path : String) (qp : Option QueryParamsObject)
          (b : Option String), generateUrl env path qp b = generateUrl env' path qp b) ∧
      (∀ (env : Option String) (path : String) (qp : Option QueryParamsObject)
          (b : Option String),
        isConfigError (generateUrl env path qp b) = true ↔ (b = none ∨ b = some "")) := by
  refine ⟨rfl, fun _ _ _ _ _ => rfl, ?_⟩
  intro env path qp b
  rcases b with _ | s
  · simp [generateUrl, isConfigError]
  · by_cases hs : s = ""
    · subst hs
      simp [generateUrl, isConfigError]
    · simp [generateUrl, isConfigError, hs]

/-- C8: the middleware validates exactly the sections the schema declares,
read from the matching request fields; on success it replaces those request
fields with the validated values (a section the validated object leaves
undefined keeps the original field); on failure it forwards — rather than
handles — a `ValidationError` with `statusCode = 400` whose `errors` list is
the engine's issue list, in order, with dotted-path `field`s. -/
theorem validateMiddleware_spec (schema : Schema) (req : Req) :
    ((dataToValidate schema req).body = (if schema.hasBody then some req.body else none) ∧
      (dataToValidate schema req).query = (if schema.hasQuery then some req.query else none) ∧
      (dataToValidate schema req).params =
        (if schema.hasParams then some req.params else none)) ∧
    (∀ validated, schema.parse (dataToValidate schema req) = Except.ok validated →
      validateMiddleware schema req = MiddlewareOutcome.next
        { body := validated.body.getD req.body,
          query := validated.query.getD req.query,
          params := validated.params.getD req.params }) ∧
    (∀ issues,
      schema.parse (dataToValidate schema req) = Except.error (ParseFailure.zodError issues) →
      validateMiddleware schema req = MiddlewareOutcome.nextValidationError
          { message :=
              ((parseZodError issues).head?.map ValidationErrorItem.message).getD
                "Validation failed",
            errors := parseZodError issues, statusCode := 400, code := "VALIDATION_ERROR" } ∧
        parseZodError issues = issues.map (fun i =>
          { field := String.intercalate "." (i.path.map PathSeg.render),
            message := i.message })) := by
  refine ⟨⟨rfl, rfl, rfl⟩, ?_, ?_⟩
  · intro v hv
    unfold validateMiddleware
    rw [hv]
  · intro issues hi
    refine ⟨?_, rfl⟩
    unfold validateMiddleware
    rw [hi]

/-- Witness for `validateMiddleware_spec`: on `emailRejectSchema` the
middleware forwards `ValidationError` with status 400 and the dotted field
`body.email`. -/
theorem validateMiddleware_spec_witness :
    validateMiddleware emailRejectSchema ⟨JsValue.null, JsValue.null, JsValue.null⟩ =
      MiddlewareOutcome.nextValidationError
        { message := "Invalid email",
          errors := [{ field := "body.email", message := "Invalid email" }],
          statusCode := 400, code := "VALIDATION_ERROR" } := by
  have h := ((validateMiddleware_spec emailRejectSchema
      ⟨JsValue.null, JsValue.null, JsValue.null⟩).2.2
    [{ path := [PathSeg.str "body", PathSeg.str "email"], message := "Invalid email" }] rfl).1
  simpa using h

end ServerUtils
